import Mathlib

/-!
Shallow embedding of the ffmpeg-wss-proxy server (server-dev.js and the
RTP-only variant), restricted to the components the verified properties
speak about: the WebM format-boundary normalizer, the Ogg header cache,
the live-Ogg fan-out broadcaster, session teardown, the per-leg subprocess
write fan-out, and the RTP-only connection handler format selection.
Bytes are modelled as natural numbers, buffers as lists of bytes.
-/

/-! ## Format Boundary Normalizer (class WebmNormalizer, server-dev.js) -/

/-- The fixed 4-byte WebM cluster (segment start) marker 0x1f 0x43 0xb6 0x75. -/
def clusterMarker : List Nat := [0x1f, 0x43, 0xb6, 0x75]

/-- The fixed 4-byte EBML (container start) marker 0x1a 0x45 0xdf 0xa3. -/
def ebmlMarker : List Nat := [0x1a, 0x45, 0xdf, 0xa3]

/-- WebmNormalizer.findCluster: scan for the first occurrence of the cluster
marker, returning its index (JS returns -1, modelled as none). -/
def findCluster : List Nat → Option Nat
  | a :: b :: c :: d :: rest =>
    if a = 0x1f ∧ b = 0x43 ∧ c = 0xb6 ∧ d = 0x75 then some 0
    else (findCluster (b :: c :: d :: rest)).map (· + 1)
  | _ => none

/-- WebmNormalizer.hasEbml: whether the EBML marker occurs anywhere. -/
def hasEbml : List Nat → Bool
  | a :: b :: c :: d :: rest =>
    (decide (a = 0x1a ∧ b = 0x45 ∧ c = 0xdf ∧ d = 0xa3)) || hasEbml (b :: c :: d :: rest)
  | _ => false

/-- Mutable state of a WebmNormalizer instance. -/
structure NormState where
  gotHeader : Bool
  pending : Option (List Nat)
deriving DecidableEq, Repr

/-- 1024 * 1024: the pending-buffer cap used in WebmNormalizer.push. -/
def webmPendingCap : Nat := 1024 * 1024

/-- WebmNormalizer.push: returns the new state and the list of buffers
written to the sink during this call. -/
def push (s : NormState) (buf : List Nat) : NormState × List (List Nat) :=
  if s.gotHeader = false then
    ({ s with gotHeader := true }, [buf])
  else
    match s.pending with
    | some p =>
      let merged := p ++ buf
      match findCluster merged with
      | none =>
        ({ s with pending := if merged.length > webmPendingCap then none else some merged },
         [])
      | some off => ({ s with pending := none }, [merged.drop off])
    | none =>
      if hasEbml buf then
        match findCluster buf with
        | none => ({ s with pending := some buf }, [])
        | some off => ({ s with pending := none }, [buf.drop off])
      else (s, [buf])

/-- Feeding a sequence of chunks, accumulating all sink writes in order. -/
def pushMany (s : NormState) : List (List Nat) → NormState × List (List Nat)
  | [] => (s, [])
  | c :: cs =>
    let r1 := push s c
    let r2 := pushMany r1.1 cs
    (r2.1, r1.2 ++ r2.2)

/-! ## Header Cache (maybeAccumulateHeader, server-dev.js) -/

/-- ASCII bytes of the OpusHead marker. -/
def opusHeadMarker : List Nat := [79, 112, 117, 115, 72, 101, 97, 100]

/-- ASCII bytes of the OpusTags marker. -/
def opusTagsMarker : List Nat := [79, 112, 117, 115, 84, 97, 103, 115]

/-- Buffer.includes: whether pat occurs as a contiguous subsequence of buf. -/
def containsSeq (buf pat : List Nat) : Bool :=
  if pat.isPrefixOf buf then true
  else
    match buf with
    | [] => false
    | _ :: rest => containsSeq rest pat

/-- The module-level header-cache state: accumulated buffer plus the two
marker flags haveOpusHead and haveOpusTags. -/
structure HeaderState where
  cache : List Nat
  haveOpusHead : Bool
  haveOpusTags : Bool
deriving DecidableEq, Repr

/-- maybeAccumulateHeader: appends the chunk and re-scans for the markers
unless both flags are already set, in which case it returns immediately. -/
def maybeAccumulateHeader (s : HeaderState) (chunk : List Nat) : HeaderState :=
  if s.haveOpusHead = true ∧ s.haveOpusTags = true then s
  else
    let cache := s.cache ++ chunk
    { cache := cache
      haveOpusHead := s.haveOpusHead || containsSeq cache opusHeadMarker
      haveOpusTags := s.haveOpusTags || containsSeq cache opusTagsMarker }

/-! ## Live-Ogg consumers (writeSafe, /live.ogg handler, broadcastOgg) -/

/-- One pull consumer of the live Ogg stream (an HTTP response object).
writeOk models the boolean result of res.write when a write is attempted
(false covers both a full buffer and a thrown exception, which writeSafe
converts to false); received logs the buffers actually written to it. -/
structure OggClient where
  writableEnded : Bool
  destroyed : Bool
  writeOk : Bool
  received : List (List Nat)
  ended : Bool
deriving DecidableEq, Repr

/-- writeSafe: returns false without writing when the response has ended or
is destroyed; otherwise performs the write and returns its boolean result
(a thrown exception is caught and yields false). -/
def writeSafe (res : OggClient) (data : List Nat) : OggClient × Bool :=
  if res.writableEnded || res.destroyed then (res, false)
  else ({ res with received := res.received ++ [data] }, res.writeOk)

/-- The /live.ogg subscription path: replay the header cache (when nonempty)
with writeSafe, then add the response to the consumer set.  The boolean
result of the replay write is discarded by the code.  Returns the new
consumer set and the consumer as admitted. -/
def subscribeLiveOgg (headerCache : List Nat) (clients : List OggClient)
    (res : OggClient) : List OggClient × OggClient :=
  let res1 := if headerCache.length ≠ 0 then (writeSafe res headerCache).1 else res
  (clients ++ [res1], res1)

/-- broadcastOgg: iterate over the snapshot of the consumer set, writing the
chunk to each consumer with writeSafe; a consumer whose write returns false
is removed from the set and ended.  Returns (surviving set, evicted-and-ended
consumers). -/
def broadcastOgg (clients : List OggClient) (chunk : List Nat) :
    List OggClient × List OggClient :=
  match clients with
  | [] => ([], [])
  | res :: rest =>
    let w := writeSafe res chunk
    let r := broadcastOgg rest chunk
    if w.2 then (w.1 :: r.1, r.2)
    else (r.1, { w.1 with ended := true } :: r.2)

/-- A consumer whose writeSafe for a chunk returns true: live and writeOk. -/
def deliverOk (res : OggClient) : Bool :=
  !res.writableEnded && !res.destroyed && res.writeOk

/-! ## Session teardown (stop, server-dev.js) -/

/-- One ffmpeg child process: whether it has exited, whether its stdin is
still open, and how many SIGTERM signals have been delivered to it. -/
structure Proc where
  exited : Bool
  stdinOpen : Bool
  sigterms : Nat
deriving DecidableEq, Repr

/-- stdin.end(): closes the input pipe (a second call is a no-op). -/
def endStdin (p : Proc) : Proc := { p with stdinOpen := false }

/-- kill("SIGTERM"): delivers the signal when the process has not exited;
on an exited process the call does nothing. -/
def killTerm (p : Proc) : Proc :=
  if p.exited then p else { p with sigterms := p.sigterms + 1 }

/-- One pass of the stop() body over a single subprocess: end stdin, then
request termination. -/
def stopProc (p : Proc) : Proc := killTerm (endStdin p)

/-- The up-to-three subprocesses of one session; the recorder ffFile is
optional, present only when the configured output mode is file. -/
structure SessionProcs where
  ffFile : Option Proc
  ffLiveOgg : Proc
  ffLiveRtp : Proc
deriving DecidableEq, Repr

/-- stop(): unconditionally runs the end-stdin / kill pass over every
subprocess; there is no guard flag, so every invocation repeats the pass. -/
def stop (s : SessionProcs) : SessionProcs :=
  { ffFile := s.ffFile.map stopProc
    ffLiveOgg := stopProc s.ffLiveOgg
    ffLiveRtp := stopProc s.ffLiveRtp }

/-- The lifecycle-visible part of a process state: (exited, stdinOpen),
ignoring how many times the termination signal was delivered. -/
def lifecycle (p : Proc) : Bool × Bool := (p.exited, p.stdinOpen)

/-- Lifecycle projection of a whole session. -/
def sessionLifecycle (s : SessionProcs) :
    Option (Bool × Bool) × (Bool × Bool) × (Bool × Bool) :=
  (s.ffFile.map lifecycle, lifecycle s.ffLiveOgg, lifecycle s.ffLiveRtp)

/-- A session whose three subprocesses are all running with open stdin and
no signals delivered yet. -/
def freshSession : SessionProcs :=
  { ffFile := some ⟨false, true, 0⟩
    ffLiveOgg := ⟨false, true, 0⟩
    ffLiveRtp := ⟨false, true, 0⟩ }

/-! ## Per-leg chunk fan-out (writeAll, server-dev.js) -/

/-- One subprocess input leg: whether stdin is writable and the bytes
written to it so far. -/
structure Leg where
  inputOpen : Bool
  received : List Nat
deriving DecidableEq, Repr

/-- A raw stream write: succeeds when the input is open, otherwise throws
(write after end), modelled as an error value. -/
def streamWrite (l : Leg) (chunk : List Nat) : Except String Leg :=
  if l.inputOpen then Except.ok { l with received := l.received ++ chunk }
  else Except.error "write after end"

/-- The guarded write used in writeAll: check stdin.writable first, attempt
the write inside try/catch; returns the leg and the error surfaced to the
caller (always none: a closed leg is skipped, a throw is swallowed). -/
def writeLegChecked (l : Leg) (chunk : List Nat) : Leg × Option String :=
  if l.inputOpen then
    match streamWrite l chunk with
    | Except.ok l2 => (l2, none)
    | Except.error _ => (l, none)
  else (l, none)

/-- The state effect of one guarded leg write. -/
def writeLeg (l : Leg) (chunk : List Nat) : Leg := (writeLegChecked l chunk).1

/-- The three legs wired by one session: optional recorder, live-Ogg
encoder, live-RTP encoder. -/
structure Pipeline where
  file : Option Leg
  fanout : Leg
  rtp : Leg
deriving DecidableEq, Repr

/-- writeAll with the surfaced errors made explicit: each leg is guarded
independently; the second component collects every error surfaced to the
caller (it is always empty). -/
def writeAllChecked (p : Pipeline) (chunk : List Nat) : Pipeline × List String :=
  let fileErrs := match p.file with
    | none => ([] : List String)
    | some l => ((writeLegChecked l chunk).2).toList
  ({ file := p.file.map (fun l => writeLeg l chunk)
     fanout := writeLeg p.fanout chunk
     rtp := writeLeg p.rtp chunk },
   fileErrs ++ ((writeLegChecked p.fanout chunk).2).toList
     ++ ((writeLegChecked p.rtp chunk).2).toList)

/-- writeAll: the state effect of routing one inbound chunk to every leg. -/
def writeAll (p : Pipeline) (chunk : List Nat) : Pipeline :=
  (writeAllChecked p chunk).1

/-- Routing a whole sequence of inbound chunks. -/
def writeAllList (p : Pipeline) (chunks : List (List Nat)) : Pipeline :=
  chunks.foldl writeAll p

/-- Writing a sequence of chunks to a single leg. -/
def writeLegList (l : Leg) (chunks : List (List Nat)) : Leg :=
  chunks.foldl writeLeg l

/-! ## Spawn failure and the session event loop (server-dev.js) -/

/-- Which of the three subprocess legs an event concerns. -/
inductive LegKind where
  | file
  | fanout
  | rtp
deriving DecidableEq, Repr

/-- Whether the wss connection handler registers a listener for the
process-level error event on any of the three ChildProcess handles.  In
the source, only close listeners are attached to the child processes, and
the error listeners on the ogg and rtp stdin streams receive stream
errors, not process-level spawn errors: no ChildProcess error listener
exists anywhere in the handler. -/
def childErrorListenerRegistered : Bool := false

/-- State of the whole Node process hosting a session: either the event
loop is running with the three legs in the given state, or the process
has died on an uncaught exception. -/
inductive SessionState where
  | running (p : Pipeline)
  | crashed
deriving DecidableEq, Repr

/-- An asynchronous event delivered to the session: an inbound WebSocket
chunk, or the error event a ChildProcess emits when its spawn fails
(e.g. the ffmpeg binary is missing). -/
inductive SessionEvent where
  | ingest (chunk : List Nat)
  | spawnError (leg : LegKind)
deriving DecidableEq, Repr

/-- One event-loop step.  An inbound chunk is routed with writeAll.  A
spawn failure emits the error event on that ChildProcess; per Node event
semantics, an error event with a registered listener is delivered to the
listener and the loop continues, while an error event with no listener is
thrown as an uncaught exception, which terminates the whole process. -/
def sessionStep (st : SessionState) (ev : SessionEvent) : SessionState :=
  match st with
  | SessionState.crashed => SessionState.crashed
  | SessionState.running p =>
    match ev with
    | SessionEvent.ingest chunk => SessionState.running (writeAll p chunk)
    | SessionEvent.spawnError _ =>
      if childErrorListenerRegistered then SessionState.running p
      else SessionState.crashed

/-- Running the session event loop over a sequence of events. -/
def sessionRun (st : SessionState) (evs : List SessionEvent) : SessionState :=
  evs.foldl sessionStep st

/-- A fresh pipeline: all three legs spawned with open inputs and nothing
received yet. -/
def freshPipeline : Pipeline :=
  { file := some ⟨true, []⟩, fanout := ⟨true, []⟩, rtp := ⟨true, []⟩ }

/-! ## RTP-only variant: format selection in the connection handler -/

/-- The raw-PCM (s16le) input argument profile of the RTP-only server. -/
def pcmArgs (sr ch : String) : List String :=
  ["-f", "s16le", "-ar", sr, "-ac", ch, "-i", "pipe:0"]

/-- The opus-webm input argument profile of the RTP-only server. -/
def opusWebmArgs : List String :=
  ["-fflags", "+genpts+igndts", "-use_wallclock_as_timestamps", "1",
   "-f", "webm", "-i", "pipe:0", "-vn",
   "-af", "pan=mono|c0=0.5*c0+0.5*c1,asetpts=N/SR/TB"]

/-- The opus-ogg input argument profile of the RTP-only server. -/
def opusOggArgs : List String :=
  ["-fflags", "+genpts", "-use_wallclock_as_timestamps", "1",
   "-f", "ogg", "-i", "pipe:0", "-vn",
   "-af", "pan=mono|c0=0.5*c0+0.5*c1,asetpts=N/SR/TB"]

/-- The inputArgsByFormat object: a lookup keyed by the three recognized
format strings; any other key misses. -/
def inputArgsByFormat (sr ch : String) (fmt : String) : Option (List String) :=
  if fmt = "pcm" then some (pcmArgs sr ch)
  else if fmt = "opus-webm" then some opusWebmArgs
  else if fmt = "opus-ogg" then some opusOggArgs
  else none

/-- query.format handling: an absent parameter, and the empty string (falsy
in JS), both default to pcm. -/
def formatOf (q : Option String) : String :=
  match q with
  | none => "pcm"
  | some s => if s = "" then "pcm" else s

/-- inputArgsByFormat[format] with the pcm fallback applied on a miss. -/
def chooseInputArgs (sr ch : String) (q : Option String) : List String :=
  (inputArgsByFormat sr ch (formatOf q)).getD (pcmArgs sr ch)

/-- Outcome of the RTP-only connection handler for a new WebSocket. -/
inductive ConnResult where
  | admitted (ffmpegInputArgs : List String)
  | rejected (code : Nat)
deriving DecidableEq, Repr

/-- The RTP-only connection handler: it has no rejection path — every
connection is admitted and an ffmpeg input profile is chosen from the
format query parameter. -/
def handleConnection (sr ch : String) (q : Option String) : ConnResult :=
  ConnResult.admitted (chooseInputArgs sr ch q)

/-! ## Concrete oversized chunk for the pending-cap analysis -/

/-- An EBML header followed by zero padding: one chunk of
webmPendingCap + 1 bytes containing no cluster marker. -/
def bigChunk : List Nat := ebmlMarker ++ List.replicate (webmPendingCap - 3) 0

/-! ## Theorems for C1 -/

/-- C1 (as stated) is refuted: with no pending buffer, a chunk that contains
no cluster marker and does not begin with the EBML marker is, per the claim,
forwarded verbatim; the code instead holds it pending because hasEbml searches
the whole buffer, not just the start.  Dually, a chunk containing the cluster
marker but no EBML marker is forwarded verbatim by the code, not from the
marker onward as the claim requires. -/
theorem c1_counterexample :
    (findCluster [0, 0x1a, 0x45, 0xdf, 0xa3] = none ∧
     ebmlMarker.isPrefixOf [0, 0x1a, 0x45, 0xdf, 0xa3] = false ∧
     push ⟨true, none⟩ [0, 0x1a, 0x45, 0xdf, 0xa3] ≠
       (⟨true, none⟩, [[0, 0x1a, 0x45, 0xdf, 0xa3]])) ∧
    (findCluster [9, 0x1f, 0x43, 0xb6, 0x75] = some 1 ∧
     push ⟨true, none⟩ [9, 0x1f, 0x43, 0xb6, 0x75] ≠
       (⟨true, none⟩, [[0x1f, 0x43, 0xb6, 0x75]])) := by
  decide

/-- C1 (amended): after the first chunk, with no pending buffer, the push
branches on whether the EBML marker occurs anywhere in the chunk: if it does
and the cluster marker is found, everything from the marker onward is
forwarded; if it does and no cluster marker is found, the whole chunk is held
pending; if the EBML marker does not occur anywhere, the chunk is forwarded
verbatim (even when it contains the cluster marker). -/
theorem c1_push_no_pending (s : NormState) (buf : List Nat)
    (hg : s.gotHeader = true) (hp : s.pending = none) :
    (hasEbml buf = false → push s buf = (s, [buf])) ∧
    (∀ off, hasEbml buf = true → findCluster buf = some off →
      push s buf = ({ s with pending := none }, [buf.drop off])) ∧
    (hasEbml buf = true → findCluster buf = none →
      push s buf = ({ s with pending := some buf }, [])) := by
  refine ⟨?_, ?_, ?_⟩
  · intro he
    simp [push, hg, hp, he]
  · intro off he hf
    simp [push, hg, hp, he, hf]
  · intro he hf
    simp [push, hg, hp, he, hf]

/-! ## Theorems for C2, C3, C4 -/

/-- C2: while at least one marker flag is false, observing a chunk appends it
to the cache (so each cache state is a prefix of the next); once both flags
are set, observing is a complete no-op. -/
theorem c2_header_cache_monotone (s : HeaderState) (chunk : List Nat) :
    (¬ (s.haveOpusHead = true ∧ s.haveOpusTags = true) →
      (maybeAccumulateHeader s chunk).cache = s.cache ++ chunk) ∧
    (s.haveOpusHead = true ∧ s.haveOpusTags = true →
      maybeAccumulateHeader s chunk = s) := by
  constructor
  · intro h
    simp [maybeAccumulateHeader, h]
  · intro h
    simp [maybeAccumulateHeader, h]

/-- C2 witness: concrete instances of both conjuncts. -/
theorem c2_header_cache_monotone_witness :
    (maybeAccumulateHeader ⟨[1], false, true⟩ [2, 3]).cache = [1] ++ [2, 3] ∧
    maybeAccumulateHeader ⟨[1], true, true⟩ [2, 3] = ⟨[1], true, true⟩ := by
  constructor
  · exact (c2_header_cache_monotone ⟨[1], false, true⟩ [2, 3]).1 (by decide)
  · exact (c2_header_cache_monotone ⟨[1], true, true⟩ [2, 3]).2 (by decide)

/-- C3 (as stated) is refuted: a consumer whose header-replay write fails
(here: already destroyed, so writeSafe returns false) is nevertheless added
to the live consumer set, not evicted. -/
theorem c3_counterexample :
    (writeSafe ⟨false, true, true, [], false⟩ [1]).2 = false ∧
    (subscribeLiveOgg [1] [] ⟨false, true, true, [], false⟩).2 ∈
      (subscribeLiveOgg [1] [] ⟨false, true, true, [], false⟩).1 := by
  decide

/-- C3 (amended): the header cache, when nonempty, is replayed to the new
consumer with writeSafe before admission, but the consumer is then admitted
to the live set unconditionally — the boolean result of the replay write is
discarded, so a failed replay does not prevent admission; eviction happens
only later (close or error events, or a failed broadcast write). -/
theorem c3_subscribe_always_admits (headerCache : List Nat)
    (clients : List OggClient) (res : OggClient) :
    (subscribeLiveOgg headerCache clients res).1 =
      clients ++ [(subscribeLiveOgg headerCache clients res).2] ∧
    (subscribeLiveOgg headerCache clients res).2 =
      (if headerCache.length ≠ 0 then (writeSafe res headerCache).1 else res) ∧
    (subscribeLiveOgg headerCache clients res).2 ∈
      (subscribeLiveOgg headerCache clients res).1 := by
  refine ⟨rfl, rfl, ?_⟩
  simp [subscribeLiveOgg]

/-- C4: publishing a chunk partitions the snapshot of the consumer set: every
consumer whose write succeeds stays and receives exactly that chunk appended;
every consumer whose write fails is evicted and ended.  Since the result is a
function of the snapshot taken at entry, mid-broadcast removals cannot skip
or corrupt delivery to the others. -/
theorem c4_broadcast_partition (clients : List OggClient) (chunk : List Nat) :
    broadcastOgg clients chunk =
      ((clients.filter deliverOk).map
         (fun res => { res with received := res.received ++ [chunk] }),
       (clients.filter (fun res => !deliverOk res)).map
         (fun res => { (writeSafe res chunk).1 with ended := true })) := by
  induction clients with
  | nil => rfl
  | cons res rest ih =>
    by_cases h1 : res.writableEnded
    · simp [broadcastOgg, writeSafe, deliverOk, h1, ih]
    · by_cases h2 : res.destroyed
      · simp [broadcastOgg, writeSafe, deliverOk, h1, h2, ih]
      · by_cases h3 : res.writeOk
        · simp [broadcastOgg, writeSafe, deliverOk, h1, h2, h3, ih]
        · simp [broadcastOgg, writeSafe, deliverOk, h1, h2, h3, ih]

/-- C1 witness: the amended theorem applied to concrete inputs. -/
theorem c1_push_no_pending_witness :
    push ⟨true, none⟩ [7, 7] = (⟨true, none⟩, [[7, 7]]) ∧
    push ⟨true, none⟩ [0x1a, 0x45, 0xdf, 0xa3, 0x1f, 0x43, 0xb6, 0x75] =
      (⟨true, none⟩, [[0x1f, 0x43, 0xb6, 0x75]]) ∧
    push ⟨true, none⟩ [0x1a, 0x45, 0xdf, 0xa3] = (⟨true, some [0x1a, 0x45, 0xdf, 0xa3]⟩, []) := by
  refine ⟨?_, ?_, ?_⟩
  · exact (c1_push_no_pending ⟨true, none⟩ [7, 7] rfl rfl).1 (by decide)
  · exact (c1_push_no_pending ⟨true, none⟩ _ rfl rfl).2.1 4 (by decide) (by decide)
  · exact (c1_push_no_pending ⟨true, none⟩ _ rfl rfl).2.2 (by decide) (by decide)

/-! ## Helper lemmas -/

/-- The cluster marker starts with byte 0x1f, so a buffer not containing
that byte contains no cluster marker. -/
theorem findCluster_eq_none_of_not_mem :
    ∀ l : List Nat, (0x1f : Nat) ∉ l → findCluster l = none
  | [], _ => rfl
  | [_], _ => rfl
  | [_, _], _ => rfl
  | [_, _, _], _ => rfl
  | a :: b :: c :: d :: rest, h => by
    have ha : ¬ (a = 0x1f ∧ b = 0x43 ∧ c = 0xb6 ∧ d = 0x75) := by
      intro hc
      exact h (by simp [hc.1])
    have ih := findCluster_eq_none_of_not_mem (b :: c :: d :: rest)
      (fun hm => h (List.mem_cons_of_mem a hm))
    simp [findCluster, ha, ih]

/-- A buffer containing the EBML marker still contains it after appending. -/
theorem hasEbml_append :
    ∀ a b : List Nat, hasEbml a = true → hasEbml (a ++ b) = true
  | [], _, h => by simp [hasEbml] at h
  | [_], _, h => by simp [hasEbml] at h
  | [_, _], _, h => by simp [hasEbml] at h
  | [_, _, _], _, h => by simp [hasEbml] at h
  | x :: y :: z :: w :: rest, b, h => by
    simp only [hasEbml, Bool.or_eq_true] at h
    rcases h with h1 | h2
    · simp only [List.cons_append, hasEbml, Bool.or_eq_true]
      exact Or.inl h1
    · have ih := hasEbml_append (y :: z :: w :: rest) b h2
      simp only [List.cons_append] at ih ⊢
      simp only [hasEbml, Bool.or_eq_true]
      exact Or.inr ih

/-- Any buffer beginning with the EBML marker satisfies hasEbml. -/
theorem hasEbml_of_ebml_prefix (rest : List Nat) :
    hasEbml (0x1a :: 0x45 :: 0xdf :: 0xa3 :: rest) = true := by
  simp [hasEbml]

/-- stopProc does not change whether the process has exited. -/
theorem stopProc_exited (p : Proc) : (stopProc p).exited = p.exited := by
  by_cases h : p.exited <;> simp [stopProc, killTerm, endStdin, h]

/-- stopProc always leaves stdin closed. -/
theorem stopProc_stdinOpen (p : Proc) : (stopProc p).stdinOpen = false := by
  by_cases h : p.exited <;> simp [stopProc, killTerm, endStdin, h]

/-- The lifecycle-visible effect of one stop pass on one process. -/
theorem lifecycle_stopProc (p : Proc) : lifecycle (stopProc p) = (p.exited, false) := by
  simp [lifecycle, stopProc_exited, stopProc_stdinOpen]

/-- A guarded leg write never surfaces an error to the caller. -/
theorem writeLegChecked_no_error (l : Leg) (chunk : List Nat) :
    (writeLegChecked l chunk).2 = none := by
  by_cases h : l.inputOpen <;> simp [writeLegChecked, streamWrite, h]

/-- A guarded write to a closed leg is a complete no-op. -/
theorem writeLegChecked_closed (l : Leg) (chunk : List Nat)
    (h : l.inputOpen = false) : writeLegChecked l chunk = (l, none) := by
  simp [writeLegChecked, h]

/-- A guarded write to an open leg appends the chunk and keeps it open. -/
theorem writeLeg_open (l : Leg) (chunk : List Nat) (h : l.inputOpen = true) :
    writeLeg l chunk = { l with received := l.received ++ chunk } := by
  simp [writeLeg, writeLegChecked, streamWrite, h]

/-- Writing a chunk sequence to an open leg appends their concatenation. -/
theorem writeLegList_open (l : Leg) (chunks : List (List Nat))
    (h : l.inputOpen = true) :
    writeLegList l chunks = { l with received := l.received ++ chunks.flatten } := by
  induction chunks generalizing l with
  | nil => cases l with
    | mk o r => simp [writeLegList]
  | cons c cs ih =>
    have hstep : writeLegList l (c :: cs) = writeLegList (writeLeg l c) cs := rfl
    rw [hstep, writeLeg_open l c h,
      ih { l with received := l.received ++ c } h]
    simp

/-- Writing a chunk sequence to a closed leg changes nothing. -/
theorem writeLegList_closed (l : Leg) (chunks : List (List Nat))
    (h : l.inputOpen = false) : writeLegList l chunks = l := by
  induction chunks with
  | nil => rfl
  | cons c cs ih =>
    have hstep : writeLegList l (c :: cs) = writeLegList (writeLeg l c) cs := rfl
    have hw : writeLeg l c = l := by
      simp [writeLeg, writeLegChecked, h]
    rw [hstep, hw, ih]

/-- The fan-out leg of writeAllList depends only on its own initial state. -/
theorem writeAllList_fanout (p : Pipeline) (chunks : List (List Nat)) :
    (writeAllList p chunks).fanout = writeLegList p.fanout chunks := by
  induction chunks generalizing p with
  | nil => rfl
  | cons c cs ih =>
    have h1 : writeAllList p (c :: cs) = writeAllList (writeAll p c) cs := rfl
    have h2 : writeLegList p.fanout (c :: cs) = writeLegList (writeLeg p.fanout c) cs := rfl
    rw [h1, h2, ih]
    rfl

/-- The RTP leg of writeAllList depends only on its own initial state. -/
theorem writeAllList_rtp (p : Pipeline) (chunks : List (List Nat)) :
    (writeAllList p chunks).rtp = writeLegList p.rtp chunks := by
  induction chunks generalizing p with
  | nil => rfl
  | cons c cs ih =>
    have h1 : writeAllList p (c :: cs) = writeAllList (writeAll p c) cs := rfl
    have h2 : writeLegList p.rtp (c :: cs) = writeLegList (writeLeg p.rtp c) cs := rfl
    rw [h1, h2, ih]
    rfl

/-- The recorder leg of writeAllList depends only on its own initial state. -/
theorem writeAllList_file (p : Pipeline) (chunks : List (List Nat)) :
    (writeAllList p chunks).file = p.file.map (fun l => writeLegList l chunks) := by
  induction chunks generalizing p with
  | nil => cases hf : p.file <;> simp [writeAllList, writeLegList, hf]
  | cons c cs ih =>
    have h1 : writeAllList p (c :: cs) = writeAllList (writeAll p c) cs := rfl
    rw [h1, ih]
    cases hf : p.file <;>
      simp [writeAll, writeAllChecked, hf, writeLegList]

/-! ## Theorems for C5 -/

/-- C5 (as stated) is refuted: the stop sequence has no reentrancy guard, so
invoking it twice on a session whose subprocesses have not yet exited
delivers the termination signal twice to every subprocess, not exactly
once — the second invocation repeats the full termination pass. -/
theorem c5_counterexample :
    (stop freshSession).ffLiveOgg.sigterms = 1 ∧
    (stop (stop freshSession)).ffLiveOgg.sigterms = 2 ∧
    (stop (stop freshSession)).ffLiveRtp.sigterms = 2 ∧
    (stop (stop freshSession)).ffFile = some ⟨false, false, 2⟩ := by
  decide

/-- C5 (amended): the stop sequence is re-entrant and idempotent on the
lifecycle-visible state: after a second invocation every subprocess has the
same exited flag and the same (closed) stdin as after the first; but the
termination signal is re-sent on every pass to any subprocess that has not
exited, so the termination work is repeated, not performed exactly once. -/
theorem c5_stop_lifecycle_idempotent (s : SessionProcs) :
    sessionLifecycle (stop (stop s)) = sessionLifecycle (stop s) := by
  cases s with
  | mk f g r =>
    cases f with
    | none =>
      simp [sessionLifecycle, stop, lifecycle_stopProc, stopProc_exited]
    | some p =>
      simp [sessionLifecycle, stop, lifecycle_stopProc, stopProc_exited]

/-! ## Theorems for C6 -/

/-- C6 (as stated) is refuted: the 1 MiB cap is only enforced when a pending
buffer is merged with a new chunk; a single chunk larger than the cap that
contains the EBML marker but no cluster marker becomes the pending buffer
with no cap check, so a pending buffer exceeding the cap is retained. -/
theorem c6_counterexample :
    (push ⟨true, none⟩ bigChunk).1.pending = some bigChunk ∧
    bigChunk.length > webmPendingCap := by
  have hmem : (0x1f : Nat) ∉ bigChunk := by
    intro h
    simp only [bigChunk] at h
    rcases List.mem_append.mp h with h1 | h2
    · revert h1
      decide
    · exact absurd (List.eq_of_mem_replicate h2) (by decide)
  have hfc : findCluster bigChunk = none := findCluster_eq_none_of_not_mem _ hmem
  have heb : hasEbml bigChunk = true :=
    hasEbml_of_ebml_prefix (List.replicate (webmPendingCap - 3) 0)
  constructor
  · simp [push, heb, hfc]
  · have hlen : bigChunk.length = webmPendingCap + 1 := by
      rw [bigChunk, List.length_append, List.length_replicate]
      rw [ebmlMarker]
      simp [webmPendingCap]
    rw [hlen]
    omega

/-- C6 (amended): on the merge path the cap does hold — whenever a pending
buffer already exists, the pending buffer after the push never exceeds
1 MiB, and a merge that would exceed the cap without finding a cluster
marker discards the pending buffer entirely.  (Only a freshly created
pending buffer, from a single oversized chunk, can exceed the cap.) -/
theorem c6_pending_cap_on_merge (s : NormState) (buf p : List Nat)
    (hg : s.gotHeader = true) (hp : s.pending = some p) :
    (∀ q, (push s buf).1.pending = some q → q.length ≤ webmPendingCap) ∧
    ((p ++ buf).length > webmPendingCap → findCluster (p ++ buf) = none →
      (push s buf).1.pending = none) := by
  constructor
  · intro q hq
    simp only [push, hg] at hq
    rw [hp] at hq
    simp only at hq
    cases hfc : findCluster (p ++ buf) with
    | none =>
      rw [hfc] at hq
      simp at hq
      rcases hq with ⟨hle, hpq⟩
      rw [← hpq, List.length_append]
      exact hle
    | some off =>
      rw [hfc] at hq
      simp at hq
  · intro hlen hfc
    have hlen2 : webmPendingCap < p.length + buf.length := by
      rw [List.length_append] at hlen
      omega
    simp [push, hg, hp, hfc, hlen2]

/-- C6 witness: a 1 MiB pending buffer merged with one more byte and no
cluster marker found is discarded. -/
theorem c6_pending_cap_on_merge_witness :
    (push ⟨true, some (List.replicate webmPendingCap 0)⟩ [0]).1.pending = none := by
  have h := (c6_pending_cap_on_merge ⟨true, some (List.replicate webmPendingCap 0)⟩ [0]
      (List.replicate webmPendingCap 0) rfl rfl).2
  apply h
  · rw [List.length_append, List.length_replicate]
    simp
  · apply findCluster_eq_none_of_not_mem
    intro hm
    rcases List.mem_append.mp hm with h1 | h2
    · exact absurd (List.eq_of_mem_replicate h1) (by decide)
    · revert h2
      decide

/-! ## Theorems for C7, C8 -/

/-- The chunk-routing layer alone is leg-isolated: with the RTP input
never writable, an open fan-out leg and an open recorder leg still receive
the concatenation of every ingested chunk in order, while the RTP leg
receives nothing.  This is the isolation the design intends; the C7
failure lies entirely in the handling of the spawn error event, not in
chunk routing. -/
theorem writeAll_routing_isolation (p : Pipeline) (chunks : List (List Nat)) (l : Leg)
    (hrtp : p.rtp.inputOpen = false)
    (hfan : p.fanout.inputOpen = true)
    (hfile : p.file = some l) (hl : l.inputOpen = true) :
    (writeAllList p chunks).fanout.received = p.fanout.received ++ chunks.flatten ∧
    (writeAllList p chunks).file =
      some { l with received := l.received ++ chunks.flatten } ∧
    (writeAllList p chunks).rtp = p.rtp := by
  refine ⟨?_, ?_, ?_⟩
  · rw [writeAllList_fanout, writeLegList_open p.fanout chunks hfan]
  · rw [writeAllList_file, hfile]
    simp [writeLegList_open l chunks hl]
  · rw [writeAllList_rtp, writeLegList_closed p.rtp chunks hrtp]

/-- C7 is a code bug: no error listener is ever registered on any of the
three ChildProcess handles, so the error event emitted when one leg fails
to spawn (the missing ffmpeg binary of the claim) is thrown as an uncaught
exception and the whole Node process crashes.  Evaluating the code at the
failing input: a spawn failure on the live-RTP leg followed by two
ingested chunks leaves the process crashed — the session does not
continue, and the remaining legs receive none of the subsequent chunks,
contrary to the claim and to the stated design (one leg's failure never
aborts the others; no error is fatal to the whole process). -/
theorem c7_spawn_failure_crashes_process :
    sessionRun (SessionState.running freshPipeline)
      [SessionEvent.spawnError LegKind.rtp,
       SessionEvent.ingest [1, 2], SessionEvent.ingest [3]] =
      SessionState.crashed ∧
    childErrorListenerRegistered = false := by
  decide

/-- C8: routing a chunk never surfaces an error to the caller, and a write
aimed at a leg whose input is no longer open is silently skipped, leaving
that leg unchanged — independently for each of the three legs. -/
theorem c8_closed_leg_write_skipped (p : Pipeline) (chunk : List Nat) :
    (writeAllChecked p chunk).2 = [] ∧
    (p.rtp.inputOpen = false → (writeAllChecked p chunk).1.rtp = p.rtp) ∧
    (p.fanout.inputOpen = false → (writeAllChecked p chunk).1.fanout = p.fanout) ∧
    (∀ l, p.file = some l → l.inputOpen = false →
      (writeAllChecked p chunk).1.file = some l) := by
  refine ⟨?_, ?_, ?_, ?_⟩
  · cases hf : p.file <;>
      simp [writeAllChecked, hf, writeLegChecked_no_error]
  · intro h
    simp [writeAllChecked, writeLeg, writeLegChecked_closed p.rtp chunk h]
  · intro h
    simp [writeAllChecked, writeLeg, writeLegChecked_closed p.fanout chunk h]
  · intro l hf h
    simp [writeAllChecked, hf, writeLeg, writeLegChecked_closed l chunk h]

/-- C8 witness: with every leg closed, routing a chunk changes nothing and
surfaces no error. -/
theorem c8_closed_leg_write_skipped_witness :
    (writeAllChecked ⟨some ⟨false, []⟩, ⟨false, []⟩, ⟨false, []⟩⟩ [5]).2 = [] ∧
    (writeAllChecked ⟨some ⟨false, []⟩, ⟨false, []⟩, ⟨false, []⟩⟩ [5]).1.rtp = ⟨false, []⟩ ∧
    (writeAllChecked ⟨some ⟨false, []⟩, ⟨false, []⟩, ⟨false, []⟩⟩ [5]).1.fanout = ⟨false, []⟩ ∧
    (writeAllChecked ⟨some ⟨false, []⟩, ⟨false, []⟩, ⟨false, []⟩⟩ [5]).1.file = some ⟨false, []⟩ := by
  have h := c8_closed_leg_write_skipped ⟨some ⟨false, []⟩, ⟨false, []⟩, ⟨false, []⟩⟩ [5]
  exact ⟨h.1, h.2.1 rfl, h.2.2.1 rfl, h.2.2.2 ⟨false, []⟩ rfl rfl⟩

/-! ## Theorems for C9 -/

/-- C9 (as stated) is refuted: the 4-byte cluster marker split as 2+2 bytes
across two pushes is not detected when the first part contains no EBML
marker — the first part is forwarded verbatim immediately, and the total
forwarded output differs from feeding the same bytes as one chunk. -/
theorem c9_counterexample :
    clusterMarker.isPrefixOf
      ([0x1f, 0x43] ++ [0xb6, 0x75, 0x1a, 0x45, 0xdf, 0xa3]) = true ∧
    (pushMany ⟨true, none⟩ [[0x1f, 0x43], [0xb6, 0x75, 0x1a, 0x45, 0xdf, 0xa3]]).2 ≠
      (push ⟨true, none⟩ ([0x1f, 0x43] ++ [0xb6, 0x75, 0x1a, 0x45, 0xdf, 0xa3])).2 := by
  decide

/-- C9 (amended): split tolerance holds exactly when the first part makes
the normalizer buffer, i.e. it contains the EBML marker but no complete
cluster marker: then the remainder is concatenated with the pending bytes,
the marker spanning the boundary is found, and both the final state and the
total forwarded output coincide with feeding the bytes as one chunk. -/
theorem c9_split_tolerance (a b : List Nat) (k : Nat)
    (ha : hasEbml a = true) (hfa : findCluster a = none)
    (hfab : findCluster (a ++ b) = some k) :
    pushMany ⟨true, none⟩ [a, b] = push ⟨true, none⟩ (a ++ b) := by
  have hab : hasEbml (a ++ b) = true := hasEbml_append a b ha
  simp [pushMany, push, ha, hfa, hab, hfab]

/-- C9 witness: the marker split as 2+2 bytes after an EBML header is
detected and forwarded identically to the unsplit feed. -/
theorem c9_split_tolerance_witness :
    pushMany ⟨true, none⟩ [[0x1a, 0x45, 0xdf, 0xa3, 0x1f, 0x43], [0xb6, 0x75]] =
      push ⟨true, none⟩ ([0x1a, 0x45, 0xdf, 0xa3, 0x1f, 0x43] ++ [0xb6, 0x75]) :=
  c9_split_tolerance [0x1a, 0x45, 0xdf, 0xa3, 0x1f, 0x43] [0xb6, 0x75] 4
    (by decide) (by decide) (by decide)

/-! ## Theorems for C10 -/

/-- C10: in the RTP-only variant, a connection whose format query parameter
is absent or not one of pcm, opus-webm, opus-ogg is still admitted, and the
raw-PCM (s16le) input argument profile is selected for the spawned
transcoder; an unrecognized format never causes a rejection. -/
theorem c10_unrecognized_format_pcm (sr ch : String) (q : Option String)
    (h : ∀ s, q = some s → s ≠ "pcm" ∧ s ≠ "opus-webm" ∧ s ≠ "opus-ogg") :
    handleConnection sr ch q = ConnResult.admitted (pcmArgs sr ch) := by
  cases q with
  | none =>
    simp [handleConnection, chooseInputArgs, formatOf, inputArgsByFormat]
  | some s =>
    rcases h s rfl with ⟨h1, h2, h3⟩
    by_cases he : s = ""
    · subst he
      simp [handleConnection, chooseInputArgs, formatOf, inputArgsByFormat]
    · simp [handleConnection, chooseInputArgs, formatOf, inputArgsByFormat,
        he, h1, h2, h3]

/-- C10 witness: format webm (recognized by the other server variant but not
by this one) is admitted with the pcm profile. -/
theorem c10_unrecognized_format_pcm_witness :
    handleConnection "48000" "1" (some "webm") =
      ConnResult.admitted (pcmArgs "48000" "1") :=
  c10_unrecognized_format_pcm "48000" "1" (some "webm")
    (by
      intro s hs
      injection hs with h
      subst h
      exact ⟨by decide, by decide, by decide⟩)
